import Mathlib

/-!
Verification development for the error-annotation engine of
`src/reynir_correct/checker.py` (GreynirCorrect).

The engine consumes a sentence (token list, optional resolved parse tree,
list of SimpleTree terminal nodes) and produces an ordered list of
annotations.  The definitions below are a shallow embedding of the Python
code.  Conventions used throughout:

* External collaborators (the `reynir` package) are modelled as data the
  engine consumes through their interfaces: a `SimpleTree` node is a record
  exposing exactly the attributes the checker reads (`span`, `tidy_text`,
  `text`, `lemma`, the four case-cast properties, and navigation results
  `enclosing_tag("VP"/"IP"/"PP")`, `NP_SUBJ`, `NP`, `P`).  Attribute access
  that raises `AttributeError` in Python when the child is absent is
  modelled with `Option`; where the Python code catches the exception the
  model inspects the `Option`, and where it does not, the model returns
  `Except.error`.
* Python exceptions (uncaught `AttributeError`, `KeyError`, `IndexError`,
  `AssertionError`) are modelled by the `Except String` monad; `annotate`
  therefore returns `Except String (List Annotation)`.
* `correct_spaces` (external, from `reynir`) is an uninterpreted parameter
  of type `String → String` carried in `Env`.
* `VerbSubjects.VERBS_ERRORS` (external, read-only table) is carried in
  `Env` as an association list verb-lemma -> (observed case -> correct case).
* Machine integers: Python ints are unbounded; token indices are `Nat`,
  annotation span endpoints are `Int` because the code computes
  `ix + t.error_span - 1` and `len(sent.tokens) - 1`, which can be negative.
* Apostrophes inside Icelandic message strings are written `\x27`.
-/

/-- Python `d.get(k)` over an association list (the read-only dicts used by
the checker have distinct keys, so first-match lookup models them). -/
def dict_get {α : Type} (l : List (String × α)) (k : String) : Option α :=
  match l with
  | [] => none
  | (k1, v) :: t => if k = k1 then some v else dict_get t k

/-- Whether the first list is an initial segment of the second (structural,
so concrete instances evaluate definitionally). -/
def leadsChars : List Char → List Char → Bool
  | [], _ => true
  | _ :: _, [] => false
  | c :: cs, d :: ds => c = d && leadsChars cs ds

/-- Whether the first list occurs as a contiguous segment of the second. -/
def occursInChars (needle : List Char) : List Char → Bool
  | [] => leadsChars needle []
  | d :: rest => leadsChars needle (d :: rest) || occursInChars needle rest

/-- Python `needle in hay` substring test. -/
def pyInStr (needle hay : String) : Bool :=
  occursInChars needle.toList hay.toList

/-- Python `s.startswith(pre)`. -/
def str_startsWith (s pre : String) : Bool :=
  leadsChars pre.toList s.toList

/-- Python `s.endswith(post)`. -/
def str_endsWith (s post : String) : Bool :=
  decide (post.toList.length ≤ s.toList.length) &&
    decide (s.toList.drop (s.toList.length - post.toList.length) = post.toList)

/-- Python `s.lower()` (ASCII model, matching `Char.toLower`). -/
def str_toLower (s : String) : String :=
  String.mk (s.toList.map Char.toLower)

/-- Helper for `pySplit`: split a character list on runs of spaces,
accumulating the current word in reverse. -/
def pySplitChars (cur : List Char) : List Char → List String
  | [] => if cur.isEmpty then [] else [String.mk cur.reverse]
  | c :: rest =>
      if c = ' ' then
        if cur.isEmpty then pySplitChars [] rest
        else String.mk cur.reverse :: pySplitChars [] rest
      else pySplitChars (c :: cur) rest

/-- Python `s.split()` (whitespace split discarding empties; the engine only
applies it to single-space joins of token texts). -/
def pySplit (s : String) : List String :=
  pySplitChars [] s.toList

/-- Python `str.isupper()`: at least one cased character and no lowercase
character (cased = ASCII-cased in this model). -/
def pyIsUpper (s : String) : Bool :=
  s.toList.any (fun c => c.isUpper || c.isLower) && s.toList.all (fun c => !c.isLower)

/-- First character uppercase (`m.stofn[0].isupper()`; BÍN stems are
nonempty, the empty case is mapped to `false`). -/
def headIsUpper (s : String) : Bool :=
  match s.toList with
  | [] => false
  | c :: _ => c.isUpper

/-- Token kinds: the checker only distinguishes `TOK.WORD` from the rest. -/
inductive TokKind where
  | WORD
  | PUNCTUATION
  | OTHER
deriving DecidableEq

/-- One BÍN lexicon analysis of a word (`m` in `t.val`); the checker reads
only the base form `stofn`. -/
structure BinMeaning where
  stofn : String
deriving DecidableEq

/-- A token as consumed by `ReynirCorrect.annotate`: text, kind, lexicon
analyses `val`, and the optional pre-attached error fields set by the
external correcting tokenizer.  `error_code = none` models a token without
the `error_code` attribute (`hasattr` is false). -/
structure Token where
  txt : String
  kind : TokKind
  val : List BinMeaning
  error_code : Option String
  error_description : String
  error_span : Nat
deriving DecidableEq

/-- Model of class `Annotation` (checker.py).  `endTok` is the inclusive
last token index (`end` in the source; renamed because `end` is a Lean
keyword). -/
structure Annotation where
  start : Int
  endTok : Int
  code : String
  text : String
  suggest : Option String
deriving DecidableEq

/-- `Annotation.__init__`: appends "/w" to the code when `is_warning` is set
and the code does not already end in "/w". -/
def Annotation.make (start endTok : Int) (code text : String)
    (suggest : Option String) (is_warning : Bool) : Annotation :=
  { start := start, endTok := endTok,
    code := if is_warning && !(str_endsWith code "/w") then code ++ "/w" else code,
    text := text, suggest := suggest }

/-- Model of the external `reynir.matcher.SimpleTree` interface, restricted
to the attributes the checker reads.  Navigation results
(`enclosing_tag("VP")`, `enclosing_tag("IP")`, `enclosing_tag("PP")`,
`NP_SUBJ`, `NP`, `P`) are stored per node; `none` models the navigation or
attribute access failing (returning `None` / raising `AttributeError`). -/
inductive STree where
  | mk (span : Nat × Nat) (tidy_text : String) (text : String) («lemma» : String)
      (nominative_np : String) (accusative_np : String) (dative_np : String)
      (genitive_np : String)
      (enclosing_VP : Option STree) (enclosing_IP : Option STree)
      (enclosing_PP : Option STree)
      (NP_SUBJ : Option STree) (NP : Option STree) (P : Option STree) : STree

def STree.span : STree → Nat × Nat
  | STree.mk sp _ _ _ _ _ _ _ _ _ _ _ _ _ => sp

def STree.tidy_text : STree → String
  | STree.mk _ tt _ _ _ _ _ _ _ _ _ _ _ _ => tt

def STree.text : STree → String
  | STree.mk _ _ tx _ _ _ _ _ _ _ _ _ _ _ => tx

def STree.«lemma» : STree → String
  | STree.mk _ _ _ lm _ _ _ _ _ _ _ _ _ _ => lm

def STree.nominative_np : STree → String
  | STree.mk _ _ _ _ x _ _ _ _ _ _ _ _ _ => x

def STree.accusative_np : STree → String
  | STree.mk _ _ _ _ _ x _ _ _ _ _ _ _ _ => x

def STree.dative_np : STree → String
  | STree.mk _ _ _ _ _ _ x _ _ _ _ _ _ _ => x

def STree.genitive_np : STree → String
  | STree.mk _ _ _ _ _ _ _ x _ _ _ _ _ _ => x

def STree.enclosing_VP : STree → Option STree
  | STree.mk _ _ _ _ _ _ _ _ vp _ _ _ _ _ => vp

def STree.enclosing_IP : STree → Option STree
  | STree.mk _ _ _ _ _ _ _ _ _ ip _ _ _ _ => ip

def STree.enclosing_PP : STree → Option STree
  | STree.mk _ _ _ _ _ _ _ _ _ _ pp _ _ _ => pp

def STree.NP_SUBJ : STree → Option STree
  | STree.mk _ _ _ _ _ _ _ _ _ _ _ subj _ _ => subj

def STree.NP : STree → Option STree
  | STree.mk _ _ _ _ _ _ _ _ _ _ _ _ np _ => np

def STree.P : STree → Option STree
  | STree.mk _ _ _ _ _ _ _ _ _ _ _ _ _ p => p

/-- The grammar terminal matched by a token node, with the attributes the
checker reads (`category`, the subject/impersonal variant flags, the last
variant `variant(-1)`, and the full terminal name). -/
structure Terminal where
  category : String
  is_subj : Bool
  is_op : Bool
  is_sagnb : Bool
  is_nh : Bool
  variant_last : String
  name : String
deriving DecidableEq

/-- A terminal (token-match) node of the deep parse tree.  `start` is the
tree-local match position (index into `sent.terminal_nodes`),
`token_index` is `node.token.index`, the index into the original token
sequence. -/
structure TerminalMatch where
  terminal : Terminal
  start : Nat
  token_index : Nat
deriving DecidableEq

/-- A nonterminal node of the deep parse tree, flattened to the attributes
the checker reads: `node.is_interior`, `node.nonterminal.is_optional`,
`node.nonterminal.has_tag("error")`, `node.nonterminal.name`, the
original-token span `node.token_span` (as a pair of original indices) and
the tree-local first position `node.start`. -/
structure Nonterminal where
  name : String
  is_interior : Bool
  is_optional : Bool
  has_tag_error : Bool
  span : Nat × Nat
  start : Nat
deriving DecidableEq

/-- The resolved deep parse tree navigated by `ErrorFinder.go`. -/
inductive DeepNode where
  | token (tm : TerminalMatch)
  | nonterminal (nt : Nonterminal) (children : List DeepNode)

/-- The sentence object consumed by `ReynirCorrect.annotate`. -/
structure Sentence where
  tokens : List Token
  terminal_nodes : List STree
  deep_tree : Option DeepNode

/-- The read-only external collaborators: `reynir.correct_spaces` and the
verb-subject error table `VerbSubjects.VERBS_ERRORS`. -/
structure Env where
  correct_spaces : String → String
  VERBS_ERRORS : List (String × List (String × String))

/-- `ErrorFinder._CASE_NAMES`. -/
def CASE_NAMES : List (String × String) :=
  [("nf", "nefni"), ("þf", "þol"), ("þgf", "þágu"), ("ef", "eignar")]

/-- `ErrorFinder._CAST_FUNCTIONS`: case abbreviation -> SimpleTree
case-cast property. -/
def CAST_FUNCTIONS : List (String × (STree → String)) :=
  [("nf", STree.nominative_np), ("þf", STree.accusative_np),
   ("þgf", STree.dative_np), ("ef", STree.genitive_np)]

/-- The inner `text(t)` helper of `ErrorFinder._node_text`: lower-case a
word token unless it is all-uppercase and longer than one character, or
BÍN lists an uppercase-first-letter stem for it. -/
def token_case_text (t : Token) : String :=
  if t.kind = TokKind.WORD then
    if t.txt.length > 1 && pyIsUpper t.txt then t.txt
    else if t.val.any (fun m => headIsUpper m.stofn) then t.txt
    else str_toLower t.txt
  else t.txt

/-- `ErrorFinder._node_span`: the (first, last) original token indices
spanned by a node (`node.token_span` with `.index` applied). -/
def node_span : DeepNode → Nat × Nat
  | DeepNode.token tm => (tm.token_index, tm.token_index)
  | DeepNode.nonterminal nt _ => nt.span

/-- `node.start`: the tree-local first match position of a node. -/
def node_start : DeepNode → Nat
  | DeepNode.token tm => tm.start
  | DeepNode.nonterminal nt _ => nt.start

/-- `node.enum_child_nodes()` as a list. -/
def node_children : DeepNode → List DeepNode
  | DeepNode.token _ => []
  | DeepNode.nonterminal _ cs => cs

/-- `ErrorFinder._node_text`: join the case-adjusted texts of the nonempty
tokens in the node span with single spaces, then `correct_spaces`. -/
def node_text (env : Env) (tokens : List Token) (node : DeepNode) : String :=
  let first := (node_span node).1
  let last := (node_span node).2
  let toks := (tokens.drop first).take (last + 1 - first)
  env.correct_spaces
    (String.intercalate " " ((toks.filter (fun t => t.txt != "")).map token_case_text))

/-- `ErrorFinder.find_verb_subject`.  The source evaluates
`tnode.enclosing_tag("VP").enclosing_tag("VP")`: when the first call
returns `None` Python raises an uncaught `AttributeError`, modelled with
`Except.error`.  The `p.NP_SUBJ` accesses sit inside
`try ... except AttributeError: pass`, so a missing `NP_SUBJ` child leaves
`subj` at `None`. -/
def find_verb_subject (tnode : STree) : Except String (Option STree) :=
  match tnode.enclosing_VP with
  | none =>
      Except.error "AttributeError: NoneType object has no attribute enclosing_tag"
  | some vp =>
      let subj : Option STree :=
        match vp.enclosing_VP with
        | none => none
        | some q => q.NP_SUBJ
      match subj with
      | some su => Except.ok (some su)
      | none =>
          match tnode.enclosing_IP with
          | none => Except.ok none
          | some ip => Except.ok ip.NP_SUBJ

/-- `annotate_wrong_subject_case` (local function inside
`ErrorFinder.visit_token`), threading the annotation list explicitly.
Dict subscripts are modelled with `dict_get`; a failed subscript is a
`KeyError`. -/
def annotate_wrong_subject_case (env : Env) (verb : String) (tnode : STree)
    (token_index : Nat) (subj_case_abbr correct_case_abbr : String)
    (ann : List Annotation) : Except String (List Annotation) :=
  match dict_get CASE_NAMES subj_case_abbr with
  | none => Except.error "KeyError: _CASE_NAMES"
  | some wrong_case =>
  match dict_get CASE_NAMES correct_case_abbr with
  | none => Except.error "KeyError: _CASE_NAMES"
  | some correct_case =>
  match find_verb_subject tnode with
  | Except.error e => Except.error e
  | Except.ok subj_opt =>
  let code := "P_WRONG_CASE_" ++ subj_case_abbr ++ "_" ++ correct_case_abbr
  match subj_opt with
  | some subj =>
      match dict_get CAST_FUNCTIONS correct_case_abbr with
      | none => Except.error "KeyError: _CAST_FUNCTIONS"
      | some castf =>
          let suggestion := castf subj
          let correct_np := env.correct_spaces suggestion
          if subj.tidy_text ≠ correct_np then
            Except.ok (ann ++ [ Annotation.make ((subj.span.1 : Nat) : Int)
              ((subj.span.2 : Nat) : Int) code
              ("Á líklega að vera \x27" ++ correct_np ++
                "\x27 (frumlag sagnarinnar \x27að " ++ verb ++
                "\x27 á að vera í " ++ correct_case ++ "falli en ekki í " ++
                wrong_case ++ "falli).")
              (some suggestion) false])
          else Except.ok ann
  | none =>
      Except.ok (ann ++ [ Annotation.make ((token_index : Nat) : Int)
        ((token_index : Nat) : Int) code
        ("Frumlag sagnarinnar \x27að " ++ verb ++ "\x27 á að vera í " ++
          correct_case ++ "falli en ekki í " ++ wrong_case ++ "falli")
        none false])

/-- `ErrorFinder.visit_token`: verb terminals only; dispatch on the
subject-marking variant and the verb-subject error table. -/
def visit_token (env : Env) (s : Sentence) (node : TerminalMatch)
    (ann : List Annotation) : Except String (List Annotation) :=
  let terminal := node.terminal
  if terminal.category ≠ "so" then Except.ok ann
  else
    match s.terminal_nodes[node.start]? with
    | none => Except.error "IndexError: terminal_nodes"
    | some tnode =>
    let verb := tnode.«lemma»
    if terminal.is_subj = false then
      let errors := (dict_get env.VERBS_ERRORS verb).getD []
      match dict_get errors "nf" with
      | some correct =>
          annotate_wrong_subject_case env verb tnode node.token_index "nf" correct ann
      | none => Except.ok ann
    else if (terminal.is_op || terminal.is_sagnb || terminal.is_nh) = false then
      Except.ok ann
    else
      let subj_case_abbr := terminal.variant_last
      if (subj_case_abbr = "nf" ∨ subj_case_abbr = "þf" ∨ subj_case_abbr = "þgf" ∨
          subj_case_abbr = "ef") then
        let errors := (dict_get env.VERBS_ERRORS verb).getD []
        match dict_get errors subj_case_abbr with
        | some correct =>
            annotate_wrong_subject_case env verb tnode node.token_index
              subj_case_abbr correct ann
        | none => Except.ok ann
      else Except.error ("AssertionError: Unknown case in " ++ terminal.name)

/-- The three result shapes a rule explanation generator may return:
plain text, (text, suggestion), or (text, start, end, suggestion). -/
inductive TextResult where
  | txt (t : String)
  | pair (t : String) (suggestion : String)
  | quad (t : String) (start : Nat) (endTok : Nat) (suggestion : Option String)

/-- The common signature of the rule explanation generators
(`ErrorFinder.Villa*` methods): they receive the environment, the sentence
(for `self._tokens` / `self._terminal_nodes`), the rendered span text, the
variant suffix, and the node. -/
def GenFun : Type :=
  Env → Sentence → String → String → DeepNode → Except String TextResult

def VillaHeldur : GenFun := fun _env _s txt _variants _node =>
  Except.ok (TextResult.pair ("\x27" ++ txt ++ "\x27 er sennilega ofaukið") "")

def «VillaVístAð» : GenFun := fun _env _s txt _variants _node =>
  Except.ok (TextResult.pair
    ("\x27" ++ txt ++ "\x27 á sennilega að vera \x27fyrst að\x27") "fyrst að")

def «VillaFráÞvíAð» : GenFun := fun _env _s txt _variants _node =>
  Except.ok (TextResult.pair
    ("\x27" ++ txt ++ "\x27 á sennilega að vera \x27" ++ txt ++ " að\x27")
    (txt ++ " að"))

def «VillaAnnaðhvort» : GenFun := fun _env _s txt _variants _node =>
  Except.ok (TextResult.pair
    ("Í stað \x27" ++ txt ++ "\x27 á sennilega að standa \x27annað hvort\x27")
    "annað hvort")

def «VillaAnnaðHvort» : GenFun := fun _env _s txt _variants _node =>
  Except.ok (TextResult.pair
    ("Í stað \x27" ++ txt ++ "\x27 á sennilega að standa \x27annaðhvort\x27")
    "annaðhvort")

def «VillaFjöldiHluti» : GenFun := fun _env _s txt _variants _node =>
  Except.ok (TextResult.txt
    ("Sögn sem á við \x27" ++ txt ++ "\x27 á sennilega að vera í eintölu, ekki fleirtölu"))

def VillaEinnAf : GenFun := fun _env _s txt _variants _node =>
  Except.ok (TextResult.txt
    ("Sögn sem á við \x27" ++ txt ++ "\x27 á sennilega að vera í eintölu, ekki fleirtölu"))

def VillaSem : GenFun := fun _env _s txt _variants _node =>
  Except.ok (TextResult.pair ("\x27" ++ txt ++ "\x27 er að öllum líkindum ofaukið") "")

def «VillaAð» : GenFun := fun _env _s txt _variants _node =>
  Except.ok (TextResult.pair ("\x27" ++ txt ++ "\x27 er að öllum líkindum ofaukið") "")

def VillaKomma : GenFun := fun _env _s _txt _variants _node =>
  Except.ok (TextResult.pair "Komma er líklega óþörf" "")

def «VillaNé» : GenFun := fun _env _s _txt _variants _node =>
  Except.ok (TextResult.pair "\x27né\x27 gæti átt að vera \x27eða\x27" "eða")

def «VillaÞóAð» : GenFun := fun _env _s txt _variants _node =>
  Except.ok (TextResult.pair
    ("\x27" ++ txt ++ "\x27 á sennilega að vera \x27" ++ (txt ++ " að") ++
      "\x27 (eða \x27þótt\x27)")
    (txt ++ " að"))

/-- `ErrorFinder.VillaÍTölu`: asserts exactly two children (subject and
verb phrase), narrows the annotated span to the verb-phrase child, and
states the required grammatical number.  `"et" in variants` is a Python
substring test. -/
def «VillaÍTölu» : GenFun := fun env s _txt variants node =>
  match node_children node with
  | [c0, c1] =>
      let subject := node_text env s.tokens c0
      let number := if pyInStr "et" variants then "eintölu" else "fleirtölu"
      Except.ok (TextResult.quad
        ("Sögn á sennilega að vera í " ++ number ++ " eins og frumlagið \x27" ++
          subject ++ "\x27")
        (node_span c1).1 (node_span c1).2 none)
  | _ => Except.error "AssertionError: len(children) == 2"

/-- `ErrorFinder.VillaFsMeðFallstjórn`: find the enclosing PP of the
terminal node at `node.start`; `p.NP` sits in `try ... except
AttributeError`, so a missing NP degrades to the no-suggestion text, while
`p.P` (reading the preposition) is unguarded and raises when absent. -/
def «VillaFsMeðFallstjórn» : GenFun := fun env s txt variants node =>
  match s.terminal_nodes[node_start node]? with
  | none => Except.error "IndexError: terminal_nodes"
  | some tnode =>
  let p := tnode.enclosing_PP
  let subj : Option STree :=
    match p with
    | none => none
    | some pp => pp.NP
  match subj, p with
  | some su, some pp =>
      let cast_functions : List (String × (STree → String)) :=
        [("nf", STree.nominative_np), ("þf", STree.accusative_np),
         ("þgf", STree.dative_np), ("ef", STree.genitive_np)]
      (match pp.P with
       | none => Except.error "AttributeError: NoneType object has no attribute text"
       | some pnode =>
         match dict_get cast_functions variants with
         | none => Except.error "KeyError: cast_functions"
         | some castf =>
           let preposition := pnode.text
           let suggestion := preposition ++ " " ++ castf su
           let correct_np := env.correct_spaces suggestion
           match dict_get CASE_NAMES variants with
           | none => Except.error "KeyError: _CASE_NAMES"
           | some cname =>
             Except.ok (TextResult.pair
               ("Á sennilega að vera \x27" ++ correct_np ++
                 "\x27 (forsetningin \x27" ++ preposition ++ "\x27 stýrir " ++
                 cname ++ "falli).")
               suggestion))
  | _, _ =>
      match pySplit txt with
      | [] => Except.error "IndexError: txt.split()"
      | w :: _ =>
          match dict_get CASE_NAMES variants with
          | none => Except.error "KeyError: _CASE_NAMES"
          | some cname =>
              Except.ok (TextResult.txt
                ("Forsetningin \x27" ++ w ++ "\x27 stýrir " ++ cname ++ "falli."))

def SvigaInnihaldNl : GenFun := fun _env _s txt variants _node =>
  match dict_get CASE_NAMES variants with
  | none => Except.error "KeyError: _CASE_NAMES"
  | some cname =>
      Except.ok (TextResult.txt
        ("\x27" ++ txt ++ "\x27 gæti átt að vera í " ++ cname ++ "falli"))

/-- `ErrorFinder.VillaEndingIR`: recast the terminal at `node.start` into
accusative form. -/
def VillaEndingIR : GenFun := fun env s _txt _variants node =>
  match s.terminal_nodes[node_start node]? with
  | none => Except.error "IndexError: terminal_nodes"
  | some tnode =>
      let suggestion := tnode.accusative_np
      let correct_np := env.correct_spaces suggestion
      Except.ok (TextResult.pair
        ("Á sennilega að vera \x27" ++ correct_np ++ "\x27") suggestion)

/-- `ErrorFinder.VillaEndingANA`: recast the terminal at `node.start` into
genitive form. -/
def VillaEndingANA : GenFun := fun env s _txt _variants node =>
  match s.terminal_nodes[node_start node]? with
  | none => Except.error "IndexError: terminal_nodes"
  | some tnode =>
      let suggestion := tnode.genitive_np
      let correct_np := env.correct_spaces suggestion
      Except.ok (TextResult.pair
        ("Á sennilega að vera \x27" ++ correct_np ++ "\x27") suggestion)

/-- The generator registry: the rule explanation methods defined on
`ErrorFinder`, keyed by base rule name. -/
def TEXT_FUNCS : List (String × GenFun) :=
  [("VillaHeldur", VillaHeldur), ("VillaVístAð", «VillaVístAð»),
   ("VillaFráÞvíAð", «VillaFráÞvíAð»), ("VillaAnnaðhvort", «VillaAnnaðhvort»),
   ("VillaAnnaðHvort", «VillaAnnaðHvort»), ("VillaFjöldiHluti", «VillaFjöldiHluti»),
   ("VillaEinnAf", VillaEinnAf), ("VillaSem", VillaSem), ("VillaAð", «VillaAð»),
   ("VillaKomma", VillaKomma), ("VillaNé", «VillaNé»), ("VillaÞóAð", «VillaÞóAð»),
   ("VillaÍTölu", «VillaÍTölu»), ("VillaFsMeðFallstjórn", «VillaFsMeðFallstjórn»),
   ("SvigaInnihaldNl", SvigaInnihaldNl), ("VillaEndingIR", VillaEndingIR),
   ("VillaEndingANA", VillaEndingANA)]

/-- The dynamic dispatch `getattr(self, name, None)` of
`ErrorFinder.visit_nonterminal`, restricted to the rule explanation
generators the class defines (the only attributes that error-tagged rule
names resolve to for the shipped grammar). -/
def text_func_for (name : String) : Option GenFun :=
  dict_get TEXT_FUNCS name

/-- Split a character list at its first occurrence of `c`, if any
(structural helper for `split_name`). -/
def splitAtFirst (c : Char) : List Char → Option (List Char × List Char)
  | [] => none
  | d :: rest =>
      if d = c then some ([], rest)
      else
        match splitAtFirst c rest with
        | none => none
        | some (pre, post) => some (d :: pre, post)

/-- Splitting a rule name at its first underscore into (base name, variant
suffix), exactly `name[:ix]` / `name[ix+1:]`; a name without an underscore
keeps `variants = ""`. -/
def split_name (name0 : String) : String × String :=
  match splitAtFirst '_' name0.toList with
  | none => (name0, "")
  | some (pre, post) => (String.mk pre, String.mk post)

/-- `ErrorFinder.visit_nonterminal`: skip interior/optional nodes; for an
error-tagged node derive the code `P_NT_` + base name (with a leading
"Villa" removed), dispatch to the generator (or the default generic text),
and append one annotation; the codes `P_NT_Að` and `P_NT_Komma` are
reclassified as warnings. -/
def visit_nonterminal (env : Env) (s : Sentence) (nt : Nonterminal)
    (cs : List DeepNode) (ann : List Annotation) :
    Except String (List Annotation) :=
  if nt.is_interior || nt.is_optional then Except.ok ann
  else if nt.has_tag_error then
    let start0 := nt.span.1
    let end0 := nt.span.2
    let span_text := node_text env s.tokens (DeepNode.nonterminal nt cs)
    let name := (split_name nt.name).1
    let variants := (split_name nt.name).2
    let code := "P_NT_" ++ (if str_startsWith name "Villa" then name.drop 5 else name)
    let is_warning := code == "P_NT_Að" || code == "P_NT_Komma"
    match text_func_for name with
    | some f =>
        (match f env s span_text variants (DeepNode.nonterminal nt cs) with
         | Except.error e => Except.error e
         | Except.ok (TextResult.txt t) =>
             Except.ok (ann ++ [ Annotation.make ((start0 : Nat) : Int)
               ((end0 : Nat) : Int) code t none is_warning])
         | Except.ok (TextResult.pair t sug) =>
             Except.ok (ann ++ [ Annotation.make ((start0 : Nat) : Int)
               ((end0 : Nat) : Int) code t (some sug) is_warning])
         | Except.ok (TextResult.quad t st en sug) =>
             Except.ok (ann ++ [ Annotation.make ((st : Nat) : Int)
               ((en : Nat) : Int) code t sug is_warning]))
    | none =>
        let ann_text :=
          "\x27" ++ span_text ++ "\x27 er líklega rangt (regla " ++ nt.name ++ ")"
        Except.ok (ann ++ [ Annotation.make ((start0 : Nat) : Int)
          ((end0 : Nat) : Int) code ann_text none is_warning])
  else Except.ok ann

mutual
/-- `ParseForestNavigator.go` with `visit_all=True` specialised to
`ErrorFinder`: a pre-order walk calling `visit_token` on terminal match
nodes and `visit_nonterminal` on nonterminal nodes, then descending into
the children. -/
def go_node (env : Env) (s : Sentence) :
    DeepNode → List Annotation → Except String (List Annotation)
  | DeepNode.token tm, ann => visit_token env s tm ann
  | DeepNode.nonterminal nt cs, ann =>
      match visit_nonterminal env s nt cs ann with
      | Except.error e => Except.error e
      | Except.ok a => go_list env s cs a

/-- Pre-order traversal of a child list. -/
def go_list (env : Env) (s : Sentence) :
    List DeepNode → List Annotation → Except String (List Annotation)
  | [], ann => Except.ok ann
  | c :: rest, ann =>
      match go_node env s c ann with
      | Except.error e => Except.error e
      | Except.ok a => go_list env s rest a
end

/-- The token-level annotation contributed by token `t` at index `ix`:
present when the correcting tokenizer pre-attached a nonempty error code;
its span is `ix .. ix + error_span - 1` (computed in `Int`, as in Python). -/
def token_annotation (ix : Nat) (t : Token) : Option Annotation :=
  match t.error_code with
  | some c =>
      if c ≠ "" then
        some ( Annotation.make ((ix : Nat) : Int)
          (((ix : Nat) : Int) + ((t.error_span : Nat) : Int) - 1)
          c t.error_description none false)
      else none
  | none => none

/-- All token-level annotations, in token order (the first loop of
`ReynirCorrect.annotate`). -/
def tokenAnnotations (tokens : List Token) : List Annotation :=
  tokens.enum.filterMap (fun p => token_annotation p.1 p.2)

/-- `words_in_bin`: word tokens with at least one BÍN meaning. -/
def words_in_bin (tokens : List Token) : Nat :=
  (tokens.filter (fun t => decide (t.kind = TokKind.WORD ∧ t.val ≠ []))).length

/-- `words_not_in_bin`: word tokens with no BÍN meaning. -/
def words_not_in_bin (tokens : List Token) : Nat :=
  (tokens.filter (fun t => decide (t.kind = TokKind.WORD ∧ t.val = []))).length

/-- The comparison `words_in_bin / num_words < ICELANDIC_RATIO` with
`ICELANDIC_RATIO = 0.6`.  Python compares IEEE doubles; for every
`num_words < 2 * 10 ^ 15` (far beyond any sentence) the double comparison
coincides with the exact rational comparison against 3/5, which is the
integer comparison used here. -/
def ratio_below_icelandic (words_in_bin num_words : Nat) : Bool :=
  words_in_bin * 5 < num_words * 3

/-- The language-confidence gate of `ReynirCorrect.annotate`: more than two
word tokens and a recognized fraction below the threshold. -/
def foreign_gate (tokens : List Token) : Bool :=
  let wib := words_in_bin tokens
  let num_words := wib + words_not_in_bin tokens
  decide (num_words > 2) && ratio_below_icelandic wib num_words

/-- The E004 whole-sentence annotation. -/
def e004_ann (tokens : List Token) : Annotation :=
  Annotation.make 0 (((tokens.length : Nat) : Int) - 1) "E004"
    "Málsgreinin er sennilega ekki á íslensku" none false

/-- The E001 whole-sentence annotation. -/
def e001_ann (tokens : List Token) : Annotation :=
  Annotation.make 0 (((tokens.length : Nat) : Int) - 1) "E001"
    "Málsgreinin fellur ekki að reglum" none false

/-- The sort key order of `ann.sort(key=lambda a: (a.start, -a.end))`:
start ascending, then end descending. -/
def annLE (a b : Annotation) : Prop :=
  a.start < b.start ∨ (a.start = b.start ∧ b.endTok ≤ a.endTok)

instance : DecidableRel annLE := fun a b => by
  unfold annLE; infer_instance

instance : IsTotal Annotation annLE := by
  constructor
  intro a b
  rcases lt_trichotomy a.start b.start with h | h | h
  · exact Or.inl (Or.inl h)
  · rcases le_total a.endTok b.endTok with h2 | h2
    · exact Or.inr (Or.inr ⟨h.symm, h2⟩)
    · exact Or.inl (Or.inr ⟨h, h2⟩)
  · exact Or.inr (Or.inl h)

instance : IsTrans Annotation annLE := by
  constructor
  intro a b c hab hbc
  rcases hab with h1 | ⟨h1, h1e⟩
  · rcases hbc with h2 | ⟨h2, _⟩
    · exact Or.inl (h1.trans h2)
    · exact Or.inl (h2 ▸ h1)
  · rcases hbc with h2 | ⟨h2, h2e⟩
    · exact Or.inl (h1 ▸ h2)
    · exact Or.inr ⟨h1.trans h2, h2e.trans h1e⟩

/-- Python's stable `list.sort` with key `(a.start, -a.end)`: for a total
preorder a stable sort is unique, so insertion sort models it exactly. -/
def sortAnns (l : List Annotation) : List Annotation :=
  List.insertionSort annLE l

/-- `ReynirCorrect.annotate` up to (but not including) the final sort:
token-level annotations, then the language gate (which replaces the list
with a single E004 annotation), the unparsable case (append one E001
annotation), or the tree traversal. -/
def annotateRaw (env : Env) (s : Sentence) : Except String (List Annotation) :=
  let ann := tokenAnnotations s.tokens
  if foreign_gate s.tokens then
    Except.ok [e004_ann s.tokens]
  else
    match s.deep_tree with
    | none => Except.ok (ann ++ [e001_ann s.tokens])
    | some tree => go_node env s tree ann

/-- `ReynirCorrect.annotate`: the raw annotation list followed by the final
stable sort. -/
def annotate (env : Env) (s : Sentence) : Except String (List Annotation) :=
  match annotateRaw env s with
  | Except.error e => Except.error e
  | Except.ok l => Except.ok (sortAnns l)

/-- The sort key `(a.start, -a.end)` (negation folded into the order). -/
def annKey (a : Annotation) : Int × Int := (a.start, a.endTok)

/-- Prepend `ann` to the payload of a successful result (the shape shared
by all the "the visitor only appends" lemmas below). -/
def mapOk (ann : List Annotation) :
    Except String (List Annotation) → Except String (List Annotation)
  | Except.error e => Except.error e
  | Except.ok em => Except.ok (ann ++ em)

mutual
/-- Bounds well-formedness of a SimpleTree node: every span stored anywhere
in the node is a valid inclusive range of original token indices (an
invariant of the external parser that builds the node-to-token links). -/
def STree.wf (n : Nat) : STree → Bool
  | STree.mk sp _ _ _ _ _ _ _ vp ip pp subj np p =>
      decide (sp.1 ≤ sp.2) && decide (sp.2 < n) &&
      optWf n vp && optWf n ip && optWf n pp && optWf n subj &&
      optWf n np && optWf n p

/-- Bounds well-formedness of an optional SimpleTree node. -/
def optWf (n : Nat) : Option STree → Bool
  | none => true
  | some t => t.wf n
end

mutual
/-- Bounds well-formedness of a deep tree node: every node span is a valid
inclusive range of original token indices. -/
def DeepNode.wf (n : Nat) : DeepNode → Bool
  | DeepNode.token tm => decide (tm.token_index < n)
  | DeepNode.nonterminal nt cs =>
      decide (nt.span.1 ≤ nt.span.2) && decide (nt.span.2 < n) && forest_wf n cs

/-- Bounds well-formedness of a list of deep tree nodes. -/
def forest_wf (n : Nat) : List DeepNode → Bool
  | [] => true
  | c :: rest => DeepNode.wf n c && forest_wf n rest
end

/-- The structural invariants the external pipeline guarantees for a
sentence: at least one token, pre-attached error spans that fit inside the
token list, and in-range spans in the terminal nodes and the parse tree. -/
def Sentence.wf (s : Sentence) : Bool :=
  decide (0 < s.tokens.length) &&
  (s.tokens.enum.all (fun p =>
     match p.2.error_code with
     | some c =>
         if c = "" then true
         else decide (1 ≤ p.2.error_span) &&
           decide (p.1 + p.2.error_span ≤ s.tokens.length)
     | none => true)) &&
  (s.terminal_nodes.all (fun tn => tn.wf s.tokens.length)) &&
  (match s.deep_tree with
   | none => true
   | some t => DeepNode.wf s.tokens.length t)

/-- Annotation spans in bounds: `0 ≤ start ≤ end < n`. -/
def annGood (n : Nat) (a : Annotation) : Prop :=
  0 ≤ a.start ∧ a.start ≤ a.endTok ∧ a.endTok < (n : Int)

/-- Concrete environment for evaluation: the identity space-normalizer and
a one-verb error table ("dreyma" erroneously compatible with a nominative
subject, corrected to accusative). -/
def env0 : Env :=
  { correct_spaces := fun str => str,
    VERBS_ERRORS := [("dreyma", [("nf", "þf")])] }

/-- A recognized plain word token. -/
def tok_plain : Token :=
  { txt := "maður", kind := TokKind.WORD, val := [BinMeaning.mk "maður"],
    error_code := none, error_description := "", error_span := 0 }

/-- An unrecognized word token (no BÍN meaning). -/
def tok_foreign : Token :=
  { txt := "fox", kind := TokKind.WORD, val := [],
    error_code := none, error_description := "", error_span := 0 }

/-- A token carrying a pre-attached tokenizer error. -/
def tok_err : Token :=
  { txt := "vila", kind := TokKind.WORD, val := [BinMeaning.mk "villa"],
    error_code := some "S001",
    error_description := "Orð virðist rangt stafsett", error_span := 1 }

/-- A sentence that fails the recognized-word-ratio gate (three word
tokens, none recognized). -/
def sForeign : Sentence :=
  { tokens := [tok_foreign, tok_foreign, tok_foreign],
    terminal_nodes := [], deep_tree := none }

/-- A sentence that passes the gate but has no parse tree; its first token
carries a pre-attached tokenizer error. -/
def sNoParse : Sentence :=
  { tokens := [tok_err, tok_plain], terminal_nodes := [], deep_tree := none }

/-- A non-verb terminal and the trivial one-node tree built from it. -/
def term_no : Terminal :=
  { category := "no", is_subj := false, is_op := false, is_sagnb := false,
    is_nh := false, variant_last := "nf", name := "no_et_nf" }

/-- A one-node deep tree whose single terminal is not a verb. -/
def tree_trivial : DeepNode :=
  DeepNode.token { terminal := term_no, start := 0, token_index := 0 }

/-- A parsed sentence with the trivial tree. -/
def sParsed : Sentence :=
  { tokens := [tok_plain], terminal_nodes := [], deep_tree := some tree_trivial }

/-- The recovered subject phrase "bóndinn" with its four case forms. -/
def subj0 : STree :=
  STree.mk (0, 0) "bóndinn" "bóndinn" "bóndi" "bóndinn" "bóndann" "bóndanum"
    "bóndans" none none none none none none

/-- The outer verb phrase holding the subject. -/
def vp_outer : STree :=
  STree.mk (0, 3) "" "" "" "" "" "" "" none none none (some subj0) none none

/-- The inner verb phrase enclosing the verb terminal. -/
def vp_inner : STree :=
  STree.mk (1, 2) "" "" "" "" "" "" "" (some vp_outer) none none none none none

/-- A verb terminal node with a recoverable subject two VP levels up. -/
def tnode0 : STree :=
  STree.mk (1, 1) "dreymir" "dreymir" "dreyma" "" "" "" "" (some vp_inner)
    none none none none none

/-- A verb terminal node with no enclosing verb phrase at all. -/
def tnode_noVP : STree :=
  STree.mk (0, 0) "dreymir" "dreymir" "dreyma" "" "" "" "" none none none
    none none none

/-- A normal (non-subject-marked) verb terminal. -/
def term_so : Terminal :=
  { category := "so", is_subj := false, is_op := false, is_sagnb := false,
    is_nh := false, variant_last := "nf", name := "so_1_þf" }

/-- A one-node tree whose terminal is the verb above, matched at tree-local
position 0. -/
def tree_so : DeepNode :=
  DeepNode.token { terminal := term_so, start := 0, token_index := 0 }

/-- A sentence whose verb terminal has no enclosing VP: subject recovery
dereferences `None` here. -/
def sCrash : Sentence :=
  { tokens := [tok_plain], terminal_nodes := [tnode_noVP],
    deep_tree := some tree_so }

/-- A sentence whose verb terminal has a recoverable subject. -/
def sVerb : Sentence :=
  { tokens := [tok_plain, tok_plain], terminal_nodes := [tnode0],
    deep_tree := some tree_so }

/-- An error-tagged nonterminal whose base name has no registered generator
but whose derived code collides with a warning-reclassified code. -/
def nt_code_cex : Nonterminal :=
  { name := "Að", is_interior := false, is_optional := false,
    has_tag_error := true, span := (0, 0), start := 0 }


theorem annLE_of_key_eq {a b : Annotation} (h : annKey a = annKey b) : annLE a b := by
  unfold annKey at h
  have h1 : a.start = b.start := congrArg Prod.fst h
  have h2 : a.endTok = b.endTok := congrArg Prod.snd h
  exact Or.inr ⟨h1, h2.ge⟩

theorem sortAnns_perm (l : List Annotation) : (sortAnns l).Perm l :=
  List.perm_insertionSort annLE l

theorem sortAnns_sorted (l : List Annotation) : List.Pairwise annLE (sortAnns l) :=
  List.sorted_insertionSort annLE l

theorem filter_orderedInsert_key_eq (k : Int × Int) (a : Annotation)
    (l : List Annotation) (ha : annKey a = k) :
    (List.orderedInsert annLE a l).filter (fun x => decide (annKey x = k)) =
      a :: l.filter (fun x => decide (annKey x = k)) := by
  induction l with
  | nil => simp [List.orderedInsert, ha]
  | cons b t ih =>
      by_cases h : annLE a b
      · rw [List.orderedInsert, if_pos h]
        simp [List.filter_cons, ha]
      · rw [List.orderedInsert, if_neg h]
        have hbk : ¬ annKey b = k := by
          intro hbk
          exact h (annLE_of_key_eq (ha.trans hbk.symm))
        simp [List.filter_cons, hbk, ih]

theorem filter_orderedInsert_key_ne (k : Int × Int) (a : Annotation)
    (l : List Annotation) (ha : ¬ annKey a = k) :
    (List.orderedInsert annLE a l).filter (fun x => decide (annKey x = k)) =
      l.filter (fun x => decide (annKey x = k)) := by
  induction l with
  | nil => simp [List.orderedInsert, ha]
  | cons b t ih =>
      by_cases h : annLE a b
      · rw [List.orderedInsert, if_pos h]
        simp [List.filter_cons, ha]
      · rw [List.orderedInsert, if_neg h]
        simp [List.filter_cons, ih]

/-- Stability of the final sort: elements with any fixed key keep their
relative order (the filtered sublist is unchanged). -/
theorem sortAnns_filter_key (k : Int × Int) (l : List Annotation) :
    (sortAnns l).filter (fun x => decide (annKey x = k)) =
      l.filter (fun x => decide (annKey x = k)) := by
  induction l with
  | nil => rfl
  | cons a t ih =>
      have ih2 : (List.insertionSort annLE t).filter (fun x => decide (annKey x = k)) =
          t.filter (fun x => decide (annKey x = k)) := ih
      rw [sortAnns, List.insertionSort]
      by_cases ha : annKey a = k
      · rw [filter_orderedInsert_key_eq k a _ ha, ih2]
        simp [List.filter_cons, ha]
      · rw [filter_orderedInsert_key_ne k a _ ha, ih2]
        simp [List.filter_cons, ha]

theorem sortAnns_singleton (a : Annotation) : sortAnns [a] = [a] := rfl

/-- `annotate_wrong_subject_case` only appends to the annotation list it is
given, and what it appends does not depend on that list. -/
theorem awsc_append (env : Env) (verb : String) (tnode : STree) (ti : Nat)
    (wc cc : String) (ann : List Annotation) :
    annotate_wrong_subject_case env verb tnode ti wc cc ann =
      mapOk ann (annotate_wrong_subject_case env verb tnode ti wc cc []) := by
  unfold annotate_wrong_subject_case
  cases dict_get CASE_NAMES wc <;> try rfl
  cases dict_get CASE_NAMES cc <;> try rfl
  cases find_verb_subject tnode <;> try rfl
  rename_i subj_opt
  cases subj_opt
  · simp [mapOk]
  · rename_i subj
    cases dict_get CAST_FUNCTIONS cc <;> try rfl
    rename_i castf
    by_cases h : subj.tidy_text = env.correct_spaces (castf subj) <;>
      simp [h, mapOk]

/-- `visit_token` only appends, independently of the incoming list. -/
theorem visit_token_append (env : Env) (s : Sentence) (node : TerminalMatch)
    (ann : List Annotation) :
    visit_token env s node ann = mapOk ann (visit_token env s node []) := by
  unfold visit_token
  try dsimp only
  repeat' first | split | split_ifs
  all_goals
    first
      | rfl
      | exact awsc_append _ _ _ _ _ _ _
      | simp [mapOk]

/-- `visit_nonterminal` only appends, independently of the incoming list. -/
theorem visit_nonterminal_append (env : Env) (s : Sentence) (nt : Nonterminal)
    (cs : List DeepNode) (ann : List Annotation) :
    visit_nonterminal env s nt cs ann =
      mapOk ann (visit_nonterminal env s nt cs []) := by
  unfold visit_nonterminal
  try dsimp only
  repeat' first | split | split_ifs
  all_goals
    first
      | rfl
      | simp [mapOk]

mutual
/-- The traversal only appends, independently of the incoming list. -/
theorem go_node_append (env : Env) (s : Sentence) (t : DeepNode)
    (ann : List Annotation) :
    go_node env s t ann = mapOk ann (go_node env s t []) := by
  cases t with
  | token tm => rw [go_node, go_node]; exact visit_token_append env s tm ann
  | nonterminal nt cs =>
      rw [go_node, go_node, visit_nonterminal_append env s nt cs ann]
      cases h : visit_nonterminal env s nt cs [] with
      | error e => rfl
      | ok em =>
          show go_list env s cs (ann ++ em) = mapOk ann (go_list env s cs em)
          rw [go_list_append env s cs (ann ++ em), go_list_append env s cs em]
          cases go_list env s cs [] <;> simp [mapOk]

theorem go_list_append (env : Env) (s : Sentence) (l : List DeepNode)
    (ann : List Annotation) :
    go_list env s l ann = mapOk ann (go_list env s l []) := by
  cases l with
  | nil => simp [go_list, mapOk]
  | cons c rest =>
      rw [go_list, go_list, go_node_append env s c ann]
      cases h : go_node env s c [] with
      | error e => rfl
      | ok em =>
          show go_list env s rest (ann ++ em) = mapOk ann (go_list env s rest em)
          rw [go_list_append env s rest (ann ++ em), go_list_append env s rest em]
          cases go_list env s rest [] <;> simp [mapOk]
end

/-- C1: for every sentence whose tokens contain more than 2 word tokens and
whose fraction of word tokens having at least one lexicon analysis is below
0.6, `annotate` returns exactly one annotation, spanning token 0 through
the last token, carrying the language-mismatch code E004, regardless of any
token-level or tree-level findings. -/
theorem C1_language_gate (env : Env) (s : Sentence)
    (h1 : 2 < words_in_bin s.tokens + words_not_in_bin s.tokens)
    (h2 : ((words_in_bin s.tokens : ℚ) /
        (((words_in_bin s.tokens + words_not_in_bin s.tokens : Nat)) : ℚ)) < 3 / 5) :
    annotate env s = Except.ok [e004_ann s.tokens] := by
  have hpos : (0 : ℚ) <
      ((words_in_bin s.tokens + words_not_in_bin s.tokens : Nat) : ℚ) := by
    have h0 : 0 < words_in_bin s.tokens + words_not_in_bin s.tokens := by omega
    exact_mod_cast h0
  rw [div_lt_div_iff₀ hpos (by norm_num : (0 : ℚ) < 5)] at h2
  have hq : ((words_in_bin s.tokens : ℚ)) * 5 <
      (((words_in_bin s.tokens + words_not_in_bin s.tokens : Nat)) : ℚ) * 3 := by
    linarith
  have hnat : words_in_bin s.tokens * 5 <
      (words_in_bin s.tokens + words_not_in_bin s.tokens) * 3 := by
    exact_mod_cast hq
  have hg : foreign_gate s.tokens = true := by
    unfold foreign_gate ratio_below_icelandic
    simp only [Bool.and_eq_true, decide_eq_true_eq]
    exact ⟨h1, hnat⟩
  unfold annotate annotateRaw
  simp [hg, sortAnns_singleton]

theorem C1_witness :
    annotate env0 sForeign = Except.ok [e004_ann sForeign.tokens] := by
  have h1 : 2 < words_in_bin sForeign.tokens + words_not_in_bin sForeign.tokens := by
    decide
  have hwib : words_in_bin sForeign.tokens = 0 := rfl
  have hnw : words_not_in_bin sForeign.tokens = 3 := rfl
  have h2 : ((words_in_bin sForeign.tokens : ℚ) /
      (((words_in_bin sForeign.tokens + words_not_in_bin sForeign.tokens : Nat)) : ℚ)) <
        3 / 5 := by
    rw [hwib, hnw]
    norm_num
  exact C1_language_gate env0 sForeign h1 h2

/-- C2: for every sentence that passes the recognized-word-ratio gate but
has no resolvable parse tree, `annotate` returns the token-level
annotations plus exactly one additional sentence-spanning E001 annotation
and nothing else (the returned list is the stable sort of exactly that
list, hence a permutation of it). -/
theorem C2_unparsable_appends_e001 (env : Env) (s : Sentence)
    (hg : foreign_gate s.tokens = false) (ht : s.deep_tree = none) :
    annotate env s = Except.ok
        (sortAnns (tokenAnnotations s.tokens ++ [e001_ann s.tokens])) ∧
      (sortAnns (tokenAnnotations s.tokens ++ [e001_ann s.tokens])).Perm
        (tokenAnnotations s.tokens ++ [e001_ann s.tokens]) := by
  constructor
  · unfold annotate annotateRaw
    simp [hg, ht]
  · exact sortAnns_perm _

theorem C2_witness :
    annotate env0 sNoParse = Except.ok
        (sortAnns (tokenAnnotations sNoParse.tokens ++ [e001_ann sNoParse.tokens])) ∧
      (sortAnns (tokenAnnotations sNoParse.tokens ++ [e001_ann sNoParse.tokens])).Perm
        (tokenAnnotations sNoParse.tokens ++ [e001_ann sNoParse.tokens]) :=
  C2_unparsable_appends_e001 env0 sNoParse rfl rfl

/-- C3: the list returned by `annotate` is sorted by start index ascending
and, at equal start, by end index descending, and the sort is stable: it is
a permutation of the pre-sort list in which annotations with equal
(start, end) keys keep their pre-sort relative order. -/
theorem C3_output_sorted_and_stable (env : Env) (s : Sentence)
    (raw out : List Annotation)
    (hraw : annotateRaw env s = Except.ok raw)
    (hout : annotate env s = Except.ok out) :
    List.Pairwise
        (fun a b : Annotation =>
          a.start < b.start ∨ (a.start = b.start ∧ b.endTok ≤ a.endTok)) out ∧
      out.Perm raw ∧
      ∀ k : Int × Int,
        out.filter (fun x => decide (annKey x = k)) =
          raw.filter (fun x => decide (annKey x = k)) := by
  have hout2 : out = sortAnns raw := by
    unfold annotate at hout
    rw [hraw] at hout
    exact (Except.ok.injEq _ _ ▸ hout).symm
  subst hout2
  refine ⟨sortAnns_sorted raw, sortAnns_perm raw, fun k => sortAnns_filter_key k raw⟩

theorem C3_witness :
    List.Pairwise
        (fun a b : Annotation =>
          a.start < b.start ∨ (a.start = b.start ∧ b.endTok ≤ a.endTok))
        (sortAnns (tokenAnnotations sNoParse.tokens ++ [e001_ann sNoParse.tokens])) ∧
      (sortAnns (tokenAnnotations sNoParse.tokens ++ [e001_ann sNoParse.tokens])).Perm
        (tokenAnnotations sNoParse.tokens ++ [e001_ann sNoParse.tokens]) ∧
      ∀ k : Int × Int,
        (sortAnns (tokenAnnotations sNoParse.tokens ++
            [e001_ann sNoParse.tokens])).filter
            (fun x => decide (annKey x = k)) =
          (tokenAnnotations sNoParse.tokens ++
            [e001_ann sNoParse.tokens]).filter
            (fun x => decide (annKey x = k)) :=
  C3_output_sorted_and_stable env0 sNoParse
    (tokenAnnotations sNoParse.tokens ++ [e001_ann sNoParse.tokens])
    (sortAnns (tokenAnnotations sNoParse.tokens ++ [e001_ann sNoParse.tokens]))
    rfl rfl

/-- C9: the engine is deterministic: `annotate` is a pure function of the
token sequence, the terminal-node list, the parse tree and the read-only
tables, so two invocations on the same data yield identical annotation
lists. -/
theorem C9_deterministic (env : Env) (s1 s2 : Sentence)
    (ht : s1.tokens = s2.tokens) (htn : s1.terminal_nodes = s2.terminal_nodes)
    (hd : s1.deep_tree = s2.deep_tree) :
    annotate env s1 = annotate env s2 := by
  have hs : s1 = s2 := by
    cases s1
    cases s2
    simp_all
  rw [hs]

theorem C9_witness : annotate env0 sParsed = annotate env0 sParsed :=
  C9_deterministic env0 sParsed sParsed rfl rfl rfl

/-- C10: for a sentence with a resolvable parse tree, the tree visitor only
appends to the annotation list it is given: before the final sort the
token-level annotations are still present, unmodified and first, followed
by the tree-derived annotations in traversal-emission order. -/
theorem C10_tree_visitor_only_appends (env : Env) (s : Sentence)
    (tree : DeepNode) (l : List Annotation)
    (hg : foreign_gate s.tokens = false) (ht : s.deep_tree = some tree)
    (h : annotateRaw env s = Except.ok l) :
    ∃ em, l = tokenAnnotations s.tokens ++ em ∧
      go_node env s tree [] = Except.ok em := by
  unfold annotateRaw at h
  rw [hg] at h
  simp only [Bool.false_eq_true, if_false, ht] at h
  rw [go_node_append] at h
  cases hgo : go_node env s tree [] with
  | error e =>
      rw [hgo] at h
      simp [mapOk] at h
  | ok em =>
      rw [hgo] at h
      simp only [mapOk, Except.ok.injEq] at h
      exact ⟨em, h.symm, rfl⟩

theorem C10_witness :
    ∃ em, ([] : List Annotation) = tokenAnnotations sParsed.tokens ++ em ∧
      go_node env0 sParsed tree_trivial [] = Except.ok em :=
  C10_tree_visitor_only_appends env0 sParsed tree_trivial [] rfl rfl rfl

/-- C4: the claim states that a missing enclosing verb phrase during
subject recovery degrades gracefully.  The code instead evaluates
`tnode.enclosing_tag("VP").enclosing_tag("VP")`, so when the first lookup
returns `None` an uncaught `AttributeError` aborts the whole `annotate`
call: at `sCrash` (a verb from the error table, matched by a normal
terminal, whose terminal node has no enclosing VP) the traversal raises
instead of emitting the verb-only annotation. -/
theorem C4_subject_recovery_crash :
    annotate env0 sCrash =
      Except.error "AttributeError: NoneType object has no attribute enclosing_tag" ∧
      find_verb_subject tnode_noVP =
        Except.error "AttributeError: NoneType object has no attribute enclosing_tag" := by
  constructor <;> rfl

/-- C5: for a case-mismatch finding with a recovered subject, the
annotation is suppressed exactly when the recast subject text equals the
subject's current normalized text; otherwise exactly one annotation is
appended, spanning the subject, with code `P_WRONG_CASE_<wrong>_<correct>`
and the recast text as suggestion. -/
theorem C5_recast_suppression (env : Env) (verb : String) (tnode : STree)
    (ti : Nat) (wc cc wcn ccn : String) (subj : STree)
    (castf : STree → String) (ann : List Annotation)
    (h1 : dict_get CASE_NAMES wc = some wcn)
    (h2 : dict_get CASE_NAMES cc = some ccn)
    (h3 : find_verb_subject tnode = Except.ok (some subj))
    (h4 : dict_get CAST_FUNCTIONS cc = some castf) :
    (subj.tidy_text = env.correct_spaces (castf subj) →
      annotate_wrong_subject_case env verb tnode ti wc cc ann = Except.ok ann) ∧
    (subj.tidy_text ≠ env.correct_spaces (castf subj) →
      annotate_wrong_subject_case env verb tnode ti wc cc ann =
        Except.ok (ann ++ [ Annotation.make ((subj.span.1 : Nat) : Int)
          ((subj.span.2 : Nat) : Int) ("P_WRONG_CASE_" ++ wc ++ "_" ++ cc)
          ("Á líklega að vera \x27" ++ env.correct_spaces (castf subj) ++
            "\x27 (frumlag sagnarinnar \x27að " ++ verb ++
            "\x27 á að vera í " ++ ccn ++ "falli en ekki í " ++ wcn ++
            "falli).")
          (some (castf subj)) false])) := by
  unfold annotate_wrong_subject_case
  rw [h1, h2, h3, h4]
  constructor
  · intro he
    simp [he]
  · intro hne
    simp [hne]

theorem C5_witness :
    (subj0.tidy_text = env0.correct_spaces (STree.accusative_np subj0) →
      annotate_wrong_subject_case env0 "dreyma" tnode0 1 "nf" "þf" [] =
        Except.ok []) ∧
    (subj0.tidy_text ≠ env0.correct_spaces (STree.accusative_np subj0) →
      annotate_wrong_subject_case env0 "dreyma" tnode0 1 "nf" "þf" [] =
        Except.ok [ Annotation.make ((subj0.span.1 : Nat) : Int)
          ((subj0.span.2 : Nat) : Int) ("P_WRONG_CASE_" ++ "nf" ++ "_" ++ "þf")
          ("Á líklega að vera \x27" ++
            env0.correct_spaces (STree.accusative_np subj0) ++
            "\x27 (frumlag sagnarinnar \x27að " ++ "dreyma" ++
            "\x27 á að vera í " ++ "þol" ++ "falli en ekki í " ++ "nefni" ++
            "falli).")
          (some (STree.accusative_np subj0)) false]) :=
  C5_recast_suppression env0 "dreyma" tnode0 1 "nf" "þf" "nefni" "þol" subj0
    STree.accusative_np [] rfl rfl rfl rfl

/-- C6: for a verb terminal without a subject-marking variant, `visit_token`
enters the case-mismatch finding procedure (with nominative as the wrong
case and the table's mapped case as the correct case) if and only if the
verb's lemma has a nominative entry in the verb-subject error table, and
does nothing else for such a terminal. -/
theorem C6_nominative_entry_dispatch (env : Env) (s : Sentence)
    (node : TerminalMatch) (tnode : STree) (ann : List Annotation)
    (hcat : node.terminal.category = "so")
    (hsubj : node.terminal.is_subj = false)
    (htn : s.terminal_nodes[node.start]? = some tnode) :
    visit_token env s node ann =
      match dict_get ((dict_get env.VERBS_ERRORS tnode.«lemma»).getD []) "nf" with
      | some correct =>
          annotate_wrong_subject_case env tnode.«lemma» tnode node.token_index
            "nf" correct ann
      | none => Except.ok ann := by
  unfold visit_token
  simp [hcat, hsubj, htn]

theorem C6_witness :
    visit_token env0 sVerb { terminal := term_so, start := 0, token_index := 0 } [] =
      match dict_get ((dict_get env0.VERBS_ERRORS tnode0.«lemma»).getD []) "nf" with
      | some correct =>
          annotate_wrong_subject_case env0 tnode0.«lemma» tnode0 0 "nf" correct []
      | none => Except.ok [] :=
  C6_nominative_entry_dispatch env0 sVerb
    { terminal := term_so, start := 0, token_index := 0 } tnode0 [] rfl rfl rfl

/-- C7 counterexample: for the error-tagged, non-interior, non-optional
nonterminal named "Að" (no registered generator), the emitted code is
"P_NT_Að/w" — the warning reclassification appends "/w" — so it is not
equal to the fixed prefix plus the base name as the claim states. -/
theorem C7_counterexample :
    (visit_nonterminal env0 sParsed nt_code_cex [] []).map
        (List.map Annotation.code) = Except.ok ["P_NT_Að/w"] ∧
      "P_NT_Að/w" ≠ "P_NT_" ++ "Að" := by
  constructor
  · rfl
  · decide

/-- C7 (amended): for every non-interior, non-optional error-tagged
nonterminal whose base name has no registered generator, exactly one
annotation is appended, covering the node's full token span, with the
generic explanation naming the rule, no suggestion, and code `P_NT_` plus
the base name with a leading "Villa" removed — except that when that code
is one of the two warning-reclassified codes (`P_NT_Að`, `P_NT_Komma`) the
warning suffix "/w" is appended to it. -/
theorem C7_default_generator (env : Env) (s : Sentence)
    (nt : Nonterminal) (cs : List DeepNode) (ann : List Annotation)
    (h1 : nt.is_interior = false) (h2 : nt.is_optional = false)
    (h3 : nt.has_tag_error = true)
    (h4 : text_func_for (split_name nt.name).1 = none) :
    visit_nonterminal env s nt cs ann = Except.ok (ann ++
      [ Annotation.make ((nt.span.1 : Nat) : Int) ((nt.span.2 : Nat) : Int)
        ("P_NT_" ++ (if str_startsWith (split_name nt.name).1 "Villa" then
            (split_name nt.name).1.drop 5 else (split_name nt.name).1))
        ("\x27" ++ node_text env s.tokens (DeepNode.nonterminal nt cs) ++
          "\x27 er líklega rangt (regla " ++ nt.name ++ ")")
        none
        (("P_NT_" ++ (if str_startsWith (split_name nt.name).1 "Villa" then
              (split_name nt.name).1.drop 5 else (split_name nt.name).1)) ==
            "P_NT_Að" ||
          ("P_NT_" ++ (if str_startsWith (split_name nt.name).1 "Villa" then
              (split_name nt.name).1.drop 5 else (split_name nt.name).1)) ==
            "P_NT_Komma")]) := by
  unfold visit_nonterminal
  simp [h1, h2, h3, h4]

theorem C7_witness :
    visit_nonterminal env0 sParsed nt_code_cex [] [] = Except.ok
      ([ Annotation.make ((nt_code_cex.span.1 : Nat) : Int)
        ((nt_code_cex.span.2 : Nat) : Int)
        ("P_NT_" ++ (if str_startsWith (split_name nt_code_cex.name).1 "Villa" then
            (split_name nt_code_cex.name).1.drop 5 else
            (split_name nt_code_cex.name).1))
        ("\x27" ++ node_text env0 sParsed.tokens
            (DeepNode.nonterminal nt_code_cex []) ++
          "\x27 er líklega rangt (regla " ++ nt_code_cex.name ++ ")")
        none
        (("P_NT_" ++ (if str_startsWith (split_name nt_code_cex.name).1 "Villa" then
              (split_name nt_code_cex.name).1.drop 5 else
              (split_name nt_code_cex.name).1)) == "P_NT_Að" ||
          ("P_NT_" ++ (if str_startsWith (split_name nt_code_cex.name).1 "Villa" then
              (split_name nt_code_cex.name).1.drop 5 else
              (split_name nt_code_cex.name).1)) == "P_NT_Komma")]) :=
  C7_default_generator env0 sParsed nt_code_cex [] [] rfl rfl rfl rfl

theorem STree.wf_span_bounds {n : Nat} {t : STree} (h : t.wf n = true) :
    t.span.1 ≤ t.span.2 ∧ t.span.2 < n := by
  cases t with
  | mk sp tt tx lm a b c d vp ip pp subj np p =>
      simp only [STree.wf, Bool.and_eq_true, decide_eq_true_eq] at h
      exact ⟨h.1.1.1.1.1.1.1, h.1.1.1.1.1.1.2⟩

theorem STree.wf_enclosing_VP {n : Nat} {t t' : STree} (h : t.wf n = true)
    (he : t.enclosing_VP = some t') : t'.wf n = true := by
  cases t with
  | mk sp tt tx lm a b c d vp ip pp subj np p =>
      simp only [STree.wf, Bool.and_eq_true, decide_eq_true_eq] at h
      simp only [STree.enclosing_VP] at he
      have hv := h.1.1.1.1.1.2
      rw [he] at hv
      simp only [optWf] at hv
      exact hv

theorem STree.wf_enclosing_IP {n : Nat} {t t' : STree} (h : t.wf n = true)
    (he : t.enclosing_IP = some t') : t'.wf n = true := by
  cases t with
  | mk sp tt tx lm a b c d vp ip pp subj np p =>
      simp only [STree.wf, Bool.and_eq_true, decide_eq_true_eq] at h
      simp only [STree.enclosing_IP] at he
      have hv := h.1.1.1.1.2
      rw [he] at hv
      simp only [optWf] at hv
      exact hv

theorem STree.wf_NP_SUBJ {n : Nat} {t t' : STree} (h : t.wf n = true)
    (he : t.NP_SUBJ = some t') : t'.wf n = true := by
  cases t with
  | mk sp tt tx lm a b c d vp ip pp subj np p =>
      simp only [STree.wf, Bool.and_eq_true, decide_eq_true_eq] at h
      simp only [STree.NP_SUBJ] at he
      have hv := h.1.1.2
      rw [he] at hv
      simp only [optWf] at hv
      exact hv

theorem find_verb_subject_wf {n : Nat} {tnode subj : STree}
    (h : tnode.wf n = true)
    (hf : find_verb_subject tnode = Except.ok (some subj)) : subj.wf n = true := by
  unfold find_verb_subject at hf
  cases hvp : tnode.enclosing_VP with
  | none => rw [hvp] at hf; cases hf
  | some vp =>
      rw [hvp] at hf
      dsimp only at hf
      have hvpwf := STree.wf_enclosing_VP h hvp
      have hip_case : ∀ (hf2 : (match tnode.enclosing_IP with
          | none => Except.ok none
          | some ip => Except.ok ip.NP_SUBJ) =
            (Except.ok (some subj) : Except String (Option STree))),
          subj.wf n = true := by
        intro hf2
        cases hip : tnode.enclosing_IP with
        | none => rw [hip] at hf2; cases hf2
        | some ip =>
            rw [hip] at hf2
            have hipwf := STree.wf_enclosing_IP h hip
            injection hf2 with hf3
            exact STree.wf_NP_SUBJ hipwf hf3
      cases hvv : vp.enclosing_VP with
      | none =>
          rw [hvv] at hf
          dsimp only at hf
          exact hip_case hf
      | some q =>
          rw [hvv] at hf
          dsimp only at hf
          have hqwf := STree.wf_enclosing_VP hvpwf hvv
          cases hns : q.NP_SUBJ with
          | none =>
              rw [hns] at hf
              dsimp only at hf
              exact hip_case hf
          | some su =>
              rw [hns] at hf
              dsimp only at hf
              injection hf with hf3
              injection hf3 with hf4
              exact hf4 ▸ STree.wf_NP_SUBJ hqwf hns

theorem DeepNode.wf_node_span_bounds {n : Nat} {c : DeepNode} (h : DeepNode.wf n c = true) :
    (node_span c).1 ≤ (node_span c).2 ∧ (node_span c).2 < n := by
  cases c with
  | token tm =>
      simp only [DeepNode.wf, decide_eq_true_eq] at h
      simp only [node_span]
      exact ⟨le_refl _, h⟩
  | nonterminal nt cs =>
      simp only [DeepNode.wf, Bool.and_eq_true, decide_eq_true_eq] at h
      simp only [node_span]
      exact ⟨h.1.1, h.1.2⟩

theorem forest_wf_mem {n : Nat} {cs : List DeepNode} {c : DeepNode}
    (h : forest_wf n cs = true) (hc : c ∈ cs) : DeepNode.wf n c = true := by
  induction cs with
  | nil => cases hc
  | cons d rest ih =>
      simp only [forest_wf, Bool.and_eq_true] at h
      cases hc with
      | head => exact h.1
      | tail _ hm => exact ih h.2 hm

theorem tokenAnnotations_good {tokens : List Token}
    (hwf : (tokens.enum.all (fun p =>
      match p.2.error_code with
      | some c =>
          if c = "" then true
          else decide (1 ≤ p.2.error_span) &&
            decide (p.1 + p.2.error_span ≤ tokens.length)
      | none => true)) = true) :
    ∀ a ∈ tokenAnnotations tokens, annGood tokens.length a := by
  intro a ha
  unfold tokenAnnotations at ha
  rw [List.mem_filterMap] at ha
  obtain ⟨p, hp, hta⟩ := ha
  rw [List.all_eq_true] at hwf
  have hcond := hwf p hp
  unfold token_annotation at hta
  cases hec : p.2.error_code with
  | none => rw [hec] at hta; cases hta
  | some c =>
      rw [hec] at hta
      rw [hec] at hcond
      dsimp only at hta hcond
      by_cases hc : c = ""
      · rw [if_neg (by simp [hc])] at hta
        cases hta
      · rw [if_pos hc] at hta
        rw [if_neg hc] at hcond
        simp only [Bool.and_eq_true, decide_eq_true_eq] at hcond
        injection hta with hta2
        subst hta2
        obtain ⟨hc1, hc2⟩ := hcond
        dsimp only [annGood, Annotation.make]
        refine ⟨?_, ?_, ?_⟩ <;> omega

theorem awsc_good {n : Nat} {env : Env} {verb : String} {tnode : STree}
    {ti : Nat} {wc cc : String} {ann l : List Annotation}
    (htn : tnode.wf n = true) (hti : ti < n)
    (hann : ∀ a ∈ ann, annGood n a)
    (h : annotate_wrong_subject_case env verb tnode ti wc cc ann = Except.ok l) :
    ∀ a ∈ l, annGood n a := by
  unfold annotate_wrong_subject_case at h
  cases h1 : dict_get CASE_NAMES wc with
  | none => rw [h1] at h; cases h
  | some wcn =>
  rw [h1] at h
  cases h2 : dict_get CASE_NAMES cc with
  | none => rw [h2] at h; cases h
  | some ccn =>
  rw [h2] at h
  cases h3 : find_verb_subject tnode with
  | error e => rw [h3] at h; cases h
  | ok so =>
  rw [h3] at h
  dsimp only at h
  cases so with
  | none =>
      injection h with h4
      subst h4
      intro a ha
      rcases List.mem_append.mp ha with hm | hm
      · exact hann a hm
      · rw [List.mem_singleton] at hm
        subst hm
        dsimp only [annGood, Annotation.make]
        refine ⟨?_, ?_, ?_⟩ <;> omega
  | some subj =>
      have hswf := find_verb_subject_wf htn h3
      obtain ⟨hs1, hs2⟩ := STree.wf_span_bounds hswf
      cases h5 : dict_get CAST_FUNCTIONS cc with
      | none => rw [h5] at h; cases h
      | some castf =>
      rw [h5] at h
      dsimp only at h
      split_ifs at h
      · injection h with h4
        subst h4
        intro a ha
        rcases List.mem_append.mp ha with hm | hm
        · exact hann a hm
        · rw [List.mem_singleton] at hm
          subst hm
          dsimp only [annGood, Annotation.make]
          refine ⟨?_, ?_, ?_⟩ <;> omega
      · injection h with h4
        subst h4
        exact hann

theorem visit_token_good {n : Nat} {env : Env} {s : Sentence}
    {node : TerminalMatch} {ann l : List Annotation}
    (htns : ∀ tn ∈ s.terminal_nodes, tn.wf n = true)
    (hnode : DeepNode.wf n (DeepNode.token node) = true)
    (hann : ∀ a ∈ ann, annGood n a)
    (h : visit_token env s node ann = Except.ok l) :
    ∀ a ∈ l, annGood n a := by
  have hti : node.token_index < n := by
    simpa [DeepNode.wf] using hnode
  unfold visit_token at h
  dsimp only at h
  split at h
  · injection h with h4; subst h4; exact hann
  · cases htn : s.terminal_nodes[node.start]? with
    | none => rw [htn] at h; cases h
    | some tnode =>
        rw [htn] at h
        dsimp only at h
        have htnwf := htns tnode (List.getElem?_mem htn)
        split at h
        · split at h
          · exact awsc_good htnwf hti hann h
          · injection h with h4; subst h4; exact hann
        · split at h
          · injection h with h4; subst h4; exact hann
          · split at h
            · split at h
              · exact awsc_good htnwf hti hann h
              · injection h with h4; subst h4; exact hann
            · cases h

theorem VillaITolu_quad_good {n : Nat} {env : Env} {s : Sentence}
    {txt var : String} {node : DeepNode} {t : String} {st en : Nat}
    {sug : Option String}
    (hnode : DeepNode.wf n node = true)
    (h : «VillaÍTölu» env s txt var node = Except.ok (TextResult.quad t st en sug)) :
    st ≤ en ∧ en < n := by
  unfold «VillaÍTölu» at h
  cases node with
  | token tm =>
      simp only [node_children] at h
      cases h
  | nonterminal nt cs =>
      simp only [node_children] at h
      cases cs with
      | nil => cases h
      | cons c0 cs1 =>
          cases cs1 with
          | nil => cases h
          | cons c1 cs2 =>
              cases cs2 with
              | cons c2 rest => cases h
              | nil =>
                  dsimp only at h
                  injection h with h2
                  injection h2 with ht hst hen hsug
                  subst hst
                  subst hen
                  have hforest : forest_wf n [c0, c1] = true := by
                    simp only [DeepNode.wf, Bool.and_eq_true] at hnode
                    exact hnode.2
                  have hc1 : DeepNode.wf n c1 = true :=
                    forest_wf_mem hforest (by simp)
                  exact DeepNode.wf_node_span_bounds hc1

theorem dict_get_val_mem {α : Type} {l : List (String × α)} {k : String}
    {v : α} (h : dict_get l k = some v) : v ∈ l.map Prod.snd := by
  induction l with
  | nil => cases h
  | cons p rest ih =>
      cases p with
      | mk k1 v1 =>
          unfold dict_get at h
          split at h
          · injection h with h2
            subst h2
            exact List.mem_cons_self _ _
          · exact List.mem_cons_of_mem _ (ih h)

theorem gen_quad_good {n : Nat} {name : String} {f : GenFun} {env : Env}
    {s : Sentence} {txt var : String} {node : DeepNode} {t : String}
    {st en : Nat} {sug : Option String}
    (hreg : text_func_for name = some f)
    (hnode : DeepNode.wf n node = true)
    (h : f env s txt var node = Except.ok (TextResult.quad t st en sug)) :
    st ≤ en ∧ en < n := by
  have hf : f ∈ TEXT_FUNCS.map Prod.snd := dict_get_val_mem hreg
  simp only [TEXT_FUNCS, List.map_cons, List.map_nil, List.mem_cons,
    List.not_mem_nil, or_false] at hf
  rcases hf with hf|hf|hf|hf|hf|hf|hf|hf|hf|hf|hf|hf|hf|hf|hf|hf|hf
  all_goals subst hf
  all_goals
    first
      | (simp only [VillaHeldur, «VillaVístAð», «VillaFráÞvíAð», «VillaAnnaðhvort»,
           «VillaAnnaðHvort», «VillaFjöldiHluti», VillaEinnAf, VillaSem, «VillaAð»,
           VillaKomma, «VillaNé», «VillaÞóAð»] at h
         injection h with h2
         injection h2)
      | (simp only [«VillaFsMeðFallstjórn», SvigaInnihaldNl, VillaEndingIR,
           VillaEndingANA] at h
         repeat' split at h
         all_goals cases h)
      | exact VillaITolu_quad_good hnode h

theorem visit_nonterminal_good {n : Nat} {env : Env} {s : Sentence}
    {nt : Nonterminal} {cs : List DeepNode} {ann l : List Annotation}
    (hnode : DeepNode.wf n (DeepNode.nonterminal nt cs) = true)
    (hann : ∀ a ∈ ann, annGood n a)
    (h : visit_nonterminal env s nt cs ann = Except.ok l) :
    ∀ a ∈ l, annGood n a := by
  have hsp : nt.span.1 ≤ nt.span.2 ∧ nt.span.2 < n := by
    simp only [DeepNode.wf, Bool.and_eq_true, decide_eq_true_eq] at hnode
    exact ⟨hnode.1.1, hnode.1.2⟩
  obtain ⟨hsp1, hsp2⟩ := hsp
  unfold visit_nonterminal at h
  dsimp only at h
  split at h
  · injection h with h4; subst h4; exact hann
  · split at h
    · cases hreg : text_func_for (split_name nt.name).1 with
      | none =>
          rw [hreg] at h
          try dsimp only at h
          injection h with h4
          subst h4
          intro a ha
          rcases List.mem_append.mp ha with hm | hm
          · exact hann a hm
          · rw [List.mem_singleton] at hm
            subst hm
            dsimp only [annGood, Annotation.make]
            refine ⟨?_, ?_, ?_⟩ <;> omega
      | some f =>
          rw [hreg] at h
          try dsimp only at h
          cases hres : f env s (node_text env s.tokens (DeepNode.nonterminal nt cs))
              (split_name nt.name).2 (DeepNode.nonterminal nt cs) with
          | error e => rw [hres] at h; cases h
          | ok r =>
              rw [hres] at h
              try dsimp only at h
              cases r with
              | txt t =>
                  injection h with h4
                  subst h4
                  intro a ha
                  rcases List.mem_append.mp ha with hm | hm
                  · exact hann a hm
                  · rw [List.mem_singleton] at hm
                    subst hm
                    dsimp only [annGood, Annotation.make]
                    refine ⟨?_, ?_, ?_⟩ <;> omega
              | pair t sug =>
                  injection h with h4
                  subst h4
                  intro a ha
                  rcases List.mem_append.mp ha with hm | hm
                  · exact hann a hm
                  · rw [List.mem_singleton] at hm
                    subst hm
                    dsimp only [annGood, Annotation.make]
                    refine ⟨?_, ?_, ?_⟩ <;> omega
              | quad t st en sug =>
                  obtain ⟨hq1, hq2⟩ := gen_quad_good hreg hnode hres
                  injection h with h4
                  subst h4
                  intro a ha
                  rcases List.mem_append.mp ha with hm | hm
                  · exact hann a hm
                  · rw [List.mem_singleton] at hm
                    subst hm
                    dsimp only [annGood, Annotation.make]
                    refine ⟨?_, ?_, ?_⟩ <;> omega
    · injection h with h4; subst h4; exact hann

mutual
theorem go_node_good {n : Nat} (env : Env) (s : Sentence) (t : DeepNode)
    (ann l : List Annotation)
    (htns : ∀ tn ∈ s.terminal_nodes, tn.wf n = true)
    (ht : DeepNode.wf n t = true)
    (hann : ∀ a ∈ ann, annGood n a)
    (h : go_node env s t ann = Except.ok l) :
    ∀ a ∈ l, annGood n a := by
  cases t with
  | token tm =>
      rw [go_node] at h
      exact visit_token_good htns ht hann h
  | nonterminal nt cs =>
      rw [go_node] at h
      cases hv : visit_nonterminal env s nt cs ann with
      | error e => rw [hv] at h; cases h
      | ok a2 =>
          rw [hv] at h
          dsimp only at h
          have ha2 := visit_nonterminal_good ht hann hv
          have hforest : forest_wf n cs = true := by
            simp only [DeepNode.wf, Bool.and_eq_true] at ht
            exact ht.2
          exact go_list_good env s cs a2 l htns hforest ha2 h

theorem go_list_good {n : Nat} (env : Env) (s : Sentence) (cs : List DeepNode)
    (ann l : List Annotation)
    (htns : ∀ tn ∈ s.terminal_nodes, tn.wf n = true)
    (hcs : forest_wf n cs = true)
    (hann : ∀ a ∈ ann, annGood n a)
    (h : go_list env s cs ann = Except.ok l) :
    ∀ a ∈ l, annGood n a := by
  cases cs with
  | nil =>
      rw [go_list] at h
      injection h with h4
      subst h4
      exact hann
  | cons c rest =>
      rw [go_list] at h
      simp only [forest_wf, Bool.and_eq_true] at hcs
      cases hg : go_node env s c ann with
      | error e => rw [hg] at h; cases h
      | ok a2 =>
          rw [hg] at h
          dsimp only at h
          have ha2 := go_node_good env s c ann a2 htns hcs.1 hann hg
          exact go_list_good env s rest a2 l htns hcs.2 ha2 h
end

/-- C8: every annotation returned by `annotate` for a well-formed sentence
satisfies `0 ≤ start ≤ end < token_count`, for token-level, sentence-level
and tree-derived annotations alike. -/
theorem C8_annotation_bounds (env : Env) (s : Sentence) (l : List Annotation)
    (hwf : s.wf = true) (h : annotate env s = Except.ok l) :
    ∀ a ∈ l, 0 ≤ a.start ∧ a.start ≤ a.endTok ∧
      a.endTok < ((s.tokens.length : Nat) : Int) := by
  unfold Sentence.wf at hwf
  simp only [Bool.and_eq_true, decide_eq_true_eq] at hwf
  obtain ⟨⟨⟨hlen, htok⟩, htns⟩, htree⟩ := hwf
  have htns2 : ∀ tn ∈ s.terminal_nodes, tn.wf s.tokens.length = true := by
    rw [List.all_eq_true] at htns
    exact htns
  unfold annotate at h
  cases hraw : annotateRaw env s with
  | error e => rw [hraw] at h; cases h
  | ok raw =>
      rw [hraw] at h
      dsimp only at h
      injection h with h4
      subst h4
      have hrawgood : ∀ a ∈ raw, annGood s.tokens.length a := by
        unfold annotateRaw at hraw
        dsimp only at hraw
        split at hraw
        · injection hraw with h5
          subst h5
          intro a ha
          rw [List.mem_singleton] at ha
          subst ha
          dsimp only [annGood, e004_ann, Annotation.make]
          refine ⟨?_, ?_, ?_⟩ <;> omega
        · cases hd : s.deep_tree with
          | none =>
              rw [hd] at hraw
              injection hraw with h5
              subst h5
              intro a ha
              rcases List.mem_append.mp ha with hm | hm
              · exact tokenAnnotations_good htok a hm
              · rw [List.mem_singleton] at hm
                subst hm
                dsimp only [annGood, e001_ann, Annotation.make]
                refine ⟨?_, ?_, ?_⟩ <;> omega
          | some tree =>
              rw [hd] at hraw
              have htreewf : DeepNode.wf s.tokens.length tree = true := by
                rw [hd] at htree
                exact htree
              exact go_node_good env s tree (tokenAnnotations s.tokens) raw htns2
                htreewf (tokenAnnotations_good htok) hraw
      intro a ha
      exact hrawgood a ((sortAnns_perm raw).mem_iff.mp ha)

theorem C8_witness :
    0 ≤ (e001_ann sNoParse.tokens).start ∧
      (e001_ann sNoParse.tokens).start ≤ (e001_ann sNoParse.tokens).endTok ∧
      (e001_ann sNoParse.tokens).endTok < ((sNoParse.tokens.length : Nat) : Int) :=
  C8_annotation_bounds env0 sNoParse
    (sortAnns (tokenAnnotations sNoParse.tokens ++ [e001_ann sNoParse.tokens]))
    (by decide) rfl (e001_ann sNoParse.tokens) (by decide)
